import Mathlib

/-!
Verification of the WLS wave-file decoder and deduplicating loader
(`radarhf_waves.py`): a shallow embedding of `Wave._parse_tables`,
`Wave.get_time`, `Wave.get_wave_values` and `wave2db`, followed by proofs
of the specified properties.

Modelling conventions:
* file content is a list of already-stripped text lines (the reader strips
  each decoded line);
* numeric cell values are rationals; a cell is `none` when the field is
  missing, is a numeric spelling of the `999.00` sentinel, or fails
  numeric coercion (`read_csv` + `pd.to_numeric(errors := coerce)` make
  unparseable fields null for every typed column the loader reads);
* exceptions the program does not catch are an `Except.error` channel:
  `pd.read_csv` raising on a block whose data lines parse to nothing
  (EmptyDataError) or to over-wide rows (ParserError), and `datetime`
  raising OverflowError on a field outside the C int range, which
  escapes the loader's row-level `except` and aborts the call with a
  transaction rollback;
* the relational store is a pure value: a site table (code, pk) and a list
  of observation rows; the `SELECT 1 ... / INSERT` pair becomes an
  existence check plus an append;
* `datetime.strftime` with a `:00.00` seconds literal is modelled by
  zeroing the seconds field of the stored timestamp (the format string
  determines the stored value only up to minutes).
-/

namespace RadarWaves

/-! ### Character-level string utilities (kernel-computable) -/

/-- Leading and trailing whitespace removal on a character list
(Python's `str.strip`). -/
def trimL (l : List Char) : List Char :=
  ((l.dropWhile Char.isWhitespace).reverse.dropWhile Char.isWhitespace).reverse

/-- Does `s` start with `pre` (Python's `str.startswith`)? -/
def strStarts (s pre : String) : Bool :=
  pre.data.isPrefixOf s.data

/-- Substring search on character lists. -/
def listContainsSub (pat : List Char) : List Char → Bool
  | [] => pat.isEmpty
  | c :: cs => pat.isPrefixOf (c :: cs) || listContainsSub pat cs

/-- Does `line` contain `pat` as a substring (Python's `in`)? -/
def containsSub (line pat : String) : Bool :=
  listContainsSub pat.data line.data

/-- Characters after the first occurrence of `c`; `none` when `c` is absent
(Python's `s.split(c, 1)[1]`, with absence as the `IndexError` case). -/
def afterChar (c : Char) : List Char → Option (List Char)
  | [] => none
  | x :: xs => if x = c then some xs else afterChar c xs

/-- The segment between the first and second occurrence of a colon:
Python's `s.split(':')[1]`. -/
def betweenColons (l : List Char) : Option (List Char) :=
  (afterChar ':' l).map (List.takeWhile (fun c => decide (c ≠ ':')))

/-- Split on whitespace runs, discarding empty pieces
(Python's `str.split()` and pandas' whitespace separator). -/
def splitWSAux (cur : List Char) : List Char → List String
  | [] => if cur.isEmpty then [] else [String.mk cur.reverse]
  | c :: cs =>
    if c.isWhitespace then
      if cur.isEmpty then splitWSAux [] cs
      else String.mk cur.reverse :: splitWSAux [] cs
    else splitWSAux (c :: cur) cs

/-- Whitespace tokens of a line. -/
def tokensOf (s : String) : List String :=
  splitWSAux [] s.data

/-- Value of a nonempty digit string. -/
def digitsToNat (cs : List Char) : Nat :=
  cs.foldl (fun a c => a * 10 + (c.toNat - 48)) 0

/-- Integer parse of a character list (Python's `int` on a stripped
string): optional sign followed by at least one digit. -/
def intOfChars : List Char → Option Int
  | [] => none
  | '-' :: rest =>
    if rest.isEmpty then none
    else if rest.all Char.isDigit then some (-(digitsToNat rest : Int)) else none
  | '+' :: rest =>
    if rest.isEmpty then none
    else if rest.all Char.isDigit then some (digitsToNat rest : Int) else none
  | cs =>
    if cs.all Char.isDigit then some (digitsToNat cs : Int) else none

/-- Powers of ten (the decimal scale of a fractional part). -/
def pow10 : Nat → Nat
  | 0 => 1
  | n + 1 => 10 * pow10 n

/-- Decimal parse of a data token (the numeric coercion applied by
`read_csv` / `pd.to_numeric`): optional sign, digits, optional single
point with digits; anything else is unparseable. The value is the exact
rational `sign * (ip.fp)`. -/
def parseDec (s : String) : Option ℚ :=
  let signed : Int × List Char :=
    match s.data with
    | '-' :: rest => (-1, rest)
    | '+' :: rest => (1, rest)
    | cs => (1, cs)
  let sgn := signed.1
  let body := signed.2
  match afterChar '.' body with
  | none =>
    if !body.isEmpty && body.all Char.isDigit then
      some (mkRat (sgn * (digitsToNat body : Int)) 1)
    else none
  | some fp =>
    let ip := body.takeWhile (fun c => decide (c ≠ '.'))
    if fp.any (fun c => decide (c = '.')) then none
    else if (!ip.isEmpty || !fp.isEmpty) && ip.all Char.isDigit && fp.all Char.isDigit then
      some (mkRat
        (sgn * ((digitsToNat ip : Int) * (pow10 fp.length : Int) + (digitsToNat fp : Int)))
        (pow10 fp.length))
    else none

/-- Cell decoding: pandas stringifies and floatifies the
`na_values='999.00'` sentinel, so every token whose numeric value is 999
(`999.00`, `999.0`, `999`, ...) is null; other tokens keep the numeric
coercion. -/
def parseCell (s : String) : Option ℚ :=
  match parseDec s with
  | some q => if q = 999 then none else some q
  | none => none

/-- Truncation toward zero of a rational (Python's `int(float)` and
pandas' `astype(int)`). -/
def ratTrunc (q : ℚ) : Int :=
  q.num.tdiv (q.den : Int)

/-! ### Rows and dictionaries -/

/-- A decoded row: each declared column name paired with its (possibly
null) numeric value. -/
abbrev Row := List (String × Option ℚ)

/-- Value of column `c` in row `r`; `none` when the column is absent or
its value is null (both end in a skipped row downstream). -/
def Row.get (r : Row) (c : String) : Option ℚ :=
  match r.find? (fun p => decide (p.1 = c)) with
  | some p => p.2
  | none => none

/-- Build one row by aligning a line's tokens with the global header
(`read_csv` with `names := global_header`): missing trailing fields are
null. -/
def mkRow (header : List String) (toks : List String) : Row :=
  header.enum.map (fun ic => (ic.2, (toks.get? ic.1).bind parseCell))

/-- Python-dict assignment on an association list: replace in place when
the key exists, append otherwise. -/
def dictInsert {α β : Type} [DecidableEq α] (t : List (α × β)) (k : α) (v : β) :
    List (α × β) :=
  if t.any (fun p => decide (p.1 = k)) then
    t.map (fun p => if p.1 = k then (k, v) else p)
  else t ++ [(k, v)]

/-- Python-dict lookup on an association list. -/
def lookupDict {α β : Type} [DecidableEq α] (t : List (α × β)) (k : α) : Option β :=
  (t.find? (fun p => decide (p.1 = k))).map Prod.snd

/-! ### Block extraction (`%TableStart` / `%TableEnd` scan) -/

/-- State of the block-extraction scan. -/
structure ExtractState where
  blocks : List (List String)
  current : List String
  inBlock : Bool
deriving Repr

/-- One step of the block-extraction scan: a start marker opens a fresh
block, an end marker commits the current one, and any other line is kept
only while inside a block. -/
def extractStep (st : ExtractState) (line : String) : ExtractState :=
  if strStarts line "%TableStart" then
    { st with inBlock := true, current := [] }
  else if strStarts line "%TableEnd" then
    { st with inBlock := false, blocks := st.blocks ++ [st.current] }
  else if st.inBlock then
    { st with current := st.current ++ [line] }
  else st

/-- All matched table blocks of a document, in order; lines of an
unterminated trailing block are never committed. -/
def extractBlocks (content : List String) : List (List String) :=
  (content.foldl extractStep ⟨[], [], false⟩).blocks

/-! ### Per-block scan: range-cell annotation and data lines -/

/-- Diagnostics printed by the decoder. -/
inductive Diag where
  | badRangeCell
  | noBlocks
  | blockOmitted
deriving DecidableEq, Repr

/-- Is this line a range-cell annotation line
(`'RangeCell:' in line and line.strip().startswith('%')`)? -/
def isAnnLine (line : String) : Bool :=
  containsSub line "RangeCell:" && ['%'].isPrefixOf (trimL line.data)

/-- Integer value of an annotation line: `int(line.split(':')[1].strip())`
as an `Option`. -/
def annValue (line : String) : Option Int :=
  (betweenColons line.data).bind (fun seg => intOfChars (trimL seg))

/-- Accumulated result of scanning one block's lines. -/
structure BlockScan where
  rangeCell : Int := -1
  dataLines : List String := []
  diags : List Diag := []
deriving DecidableEq, Repr

/-- One step of the block scan: an annotation line (re)sets the range
cell (falling back to the `-1` sentinel with a diagnostic when its value
is unparseable), a non-marker line is a data line, anything else is
ignored. -/
def scanLine (s : BlockScan) (line : String) : BlockScan :=
  if isAnnLine line then
    match annValue line with
    | some n => { s with rangeCell := n }
    | none => { s with rangeCell := -1, diags := s.diags ++ [Diag.badRangeCell] }
  else if !strStarts line "%" then
    { s with dataLines := s.dataLines ++ [line] }
  else s

/-- Scan of a whole block. -/
def scanBlock (block : List String) : BlockScan :=
  block.foldl scanLine {}

/-- Rows decoded from a block's data lines against the global header
(blank lines are skipped by `read_csv`). -/
def blockRows (header : List String) (block : List String) : List Row :=
  (((scanBlock block).dataLines).filter (fun l => !(tokensOf l).isEmpty)).map
    (fun l => mkRow header (tokensOf l))

/-! ### Variant resolution and document decoding -/

/-- Fatal decode outcomes. -/
inductive DecodeError where
  | missingHeader
deriving DecidableEq, Repr

/-- Mutable decoder state threaded through the blocks. -/
structure DecState where
  tables : List (Int × List Row) := []
  diags : List Diag := []
deriving DecidableEq, Repr

/-- Range-cell key of a row via its `RCLL` column (`astype(int)`
truncation), `none` when that value is null. -/
def rcllKey (r : Row) : Option Int :=
  (Row.get r "RCLL").map ratTrunc

/-- The `astype(int)` rewrite of the `RCLL` column before grouping. -/
def setRCLLInt (r : Row) : Row :=
  r.map (fun p =>
    if p.1 = "RCLL" then (p.1, p.2.map (fun q => ((ratTrunc q : Int) : ℚ))) else p)

/-- Insert a key into a strictly-sorted key list (model of the sorted
distinct keys produced by `groupby`). -/
def insertKey (v : Int) : List Int → List Int
  | [] => [v]
  | k :: ks =>
    if v < k then v :: k :: ks
    else if v = k then k :: ks
    else k :: insertKey v ks

/-- Sorted distinct `RCLL` group keys of a list of rows. -/
def groupKeys (rows : List Row) : List Int :=
  (rows.filterMap rcllKey).foldl (fun acc v => insertKey v acc) []

/-- The rows of one `groupby` group, in source order. -/
def groupRows (k : Int) (rows : List Row) : List Row :=
  rows.filter (fun r => decide (rcllKey r = some k))

/-- The rows kept for column-variant grouping: `RCLL` null dropped,
column cast to integer. -/
def keptRows (header : List String) (block : List String) : List Row :=
  ((blockRows header block).filter (fun r => (Row.get r "RCLL").isSome)).map setRCLLInt

/-- Decode one table block into the running state: annotated variant
first, then the `RCLL`-column variant, else a diagnostic; a block with no
data lines is skipped before variant resolution. -/
def decodeBlock (header : List String) (st : DecState) (block : List String) : DecState :=
  let sc := scanBlock block
  let diags1 := st.diags ++ sc.diags
  if sc.dataLines.isEmpty then { st with diags := diags1 }
  else
    let rows := blockRows header block
    if sc.rangeCell ≠ -1 then
      { tables := dictInsert st.tables sc.rangeCell rows, diags := diags1 }
    else if header.any (fun c => decide (c = "RCLL")) then
      let kept := keptRows header block
      if kept.isEmpty then { st with diags := diags1 }
      else
        { tables := (groupKeys kept).foldl (fun t k => dictInsert t k (groupRows k kept)) st.tables,
          diags := diags1 }
    else { st with diags := diags1 ++ [Diag.blockOmitted] }

/-- The global column header: tokens after the colon of the first line
containing `%TableColumnTypes:`; an absent line or an empty token list is
the missing-header condition. -/
def findHeader (content : List String) : Option (List String) :=
  match content.find? (fun l => containsSub l "%TableColumnTypes:") with
  | none => none
  | some l =>
    match afterChar ':' l.data with
    | none => none
    | some rest =>
      let h := splitWSAux [] rest
      if h.isEmpty then none else some h

/-- Result of decoding one document. -/
structure DecodeResult where
  tables : List (Int × List Row)
  diags : List Diag
  fatal : Option DecodeError
deriving DecidableEq, Repr

/-- Decode a whole document (`Wave._parse_tables`): find the global
header, extract the blocks, resolve each block's variant. -/
def decode (content : List String) : DecodeResult :=
  match findHeader content with
  | none => { tables := [], diags := [], fatal := some DecodeError.missingHeader }
  | some header =>
    let blocks := extractBlocks content
    if blocks.isEmpty then { tables := [], diags := [Diag.noBlocks], fatal := none }
    else
      let st := blocks.foldl (decodeBlock header) {}
      { tables := st.tables, diags := st.diags, fatal := none }

/-! ### The pandas raise channel of `read_csv` -/

/-- Exceptions `pd.read_csv` raises inside `_parse_tables` and which
nothing in the program catches. -/
inductive PandasError where
  | emptyData
  | parserError
deriving DecidableEq, Repr

deriving instance DecidableEq for Except

/-- The token rows `read_csv` actually parses from a block: one per data
line, blank lines dropped. -/
def blockTokenRows (block : List String) : List (List String) :=
  ((scanBlock block).dataLines.map tokensOf).filter (fun r => !r.isEmpty)

/-- Does `read_csv` raise on this block? A block with no data lines at
all is skipped before `read_csv` (`if not data_str`), but data lines
that are all blank leave nothing to parse (EmptyDataError), and a row
wider than the expected width — the larger of the header width and the
first row's width — raises a tokenizing ParserError. -/
def blockCrash (header : List String) (block : List String) : Option PandasError :=
  if (scanBlock block).dataLines.isEmpty then none
  else
    match blockTokenRows block with
    | [] => some PandasError.emptyData
    | r0 :: rest =>
      let w := max header.length r0.length
      if (r0 :: rest).any (fun r => decide (r.length > w)) then some PandasError.parserError
      else none

/-- `decodeBlock` with the raise channel: `read_csv` failures propagate
out of the per-block loop. -/
def decodeBlockE (header : List String) (st : DecState) (block : List String) :
    Except PandasError DecState :=
  match blockCrash header block with
  | some e => Except.error e
  | none => Except.ok (decodeBlock header st block)

/-- The per-block loop with the raise channel: the first crashing block
aborts the whole parse. -/
def decodeBlocksE (header : List String) (st : DecState) :
    List (List String) → Except PandasError DecState
  | [] => Except.ok st
  | b :: bs =>
    match decodeBlockE header st b with
    | Except.error e => Except.error e
    | Except.ok st' => decodeBlocksE header st' bs

/-- `Wave._parse_tables` with the raise channel: an uncaught `read_csv`
exception escapes the whole decode. -/
def decodeE (content : List String) : Except PandasError DecodeResult :=
  match findHeader content with
  | none => Except.ok { tables := [], diags := [], fatal := some DecodeError.missingHeader }
  | some header =>
    if (extractBlocks content).isEmpty then
      Except.ok { tables := [], diags := [Diag.noBlocks], fatal := none }
    else
      match decodeBlocksE header {} (extractBlocks content) with
      | Except.error e => Except.error e
      | Except.ok st => Except.ok { tables := st.tables, diags := st.diags, fatal := none }

/-! ### The store and the loader (`wave2db`) -/

/-- A timestamp as persisted by `strftime` into the `datetime` column;
the format string hard-codes `:00.00` for the seconds, so a stored value
always has `second = 0`. -/
structure StoredTime where
  year : Int
  month : Int
  day : Int
  hour : Int
  minute : Int
  second : Int
deriving DecidableEq, Repr

/-- One row of `waves.values`. -/
structure Obs where
  fk_site : Nat
  fk_range : Int
  datetime : StoredTime
  height : ℚ
  period : ℚ
  direction : ℚ
deriving DecidableEq, Repr

/-- The relational store: the `waves.sites` (code, pk) rows in `pk`
order, and the `waves.values` rows in insertion order. -/
structure Store where
  sites : List (String × Nat)
  values : List Obs
deriving DecidableEq, Repr

/-- Leap-year test of the proleptic Gregorian calendar used by
`datetime`. -/
def isLeap (y : Int) : Bool :=
  y % 4 = 0 && (!(y % 100 = 0) || y % 400 = 0)

/-- Days in a month, as `datetime` validates them. -/
def daysInMonth (y m : Int) : Int :=
  if m = 2 then (if isLeap y then 29 else 28)
  else if m = 4 || m = 6 || m = 9 || m = 11 then 30
  else 31

/-- Do the six integers form a valid `datetime` (argument ranges checked
by the `datetime` constructor)? -/
def validDateTime (y mo d h mi s : Int) : Bool :=
  decide (1 ≤ y) && decide (y ≤ 9999) &&
  decide (1 ≤ mo) && decide (mo ≤ 12) &&
  decide (1 ≤ d) && decide (d ≤ daysInMonth y mo) &&
  decide (0 ≤ h) && decide (h ≤ 23) &&
  decide (0 ≤ mi) && decide (mi ≤ 59) &&
  decide (0 ≤ s) && decide (s ≤ 59)

/-- `int(row[c])`: `none` when the column is absent or null (the
`KeyError` / `ValueError` cases, both caught and turned into a skipped
row). -/
def getIntField (r : Row) (c : String) : Option Int :=
  (Row.get r c).map ratTrunc

/-- `Wave.get_time`: build the row's timestamp from the six integer
fields; `none` models the `ValueError` raised on a null field or an
invalid calendar date-time. -/
def get_time (r : Row) : Option StoredTime :=
  Option.bind (getIntField r "TYRS") fun y =>
  Option.bind (getIntField r "TMON") fun mo =>
  Option.bind (getIntField r "TDAY") fun d =>
  Option.bind (getIntField r "THRS") fun h =>
  Option.bind (getIntField r "TMIN") fun mi =>
  Option.bind (getIntField r "TSEC") fun s =>
  if validDateTime y mo d h mi s then some ⟨y, mo, d, h, mi, s⟩ else none

/-- `Wave.get_wave_values` plus the loader's `pd.isna` guard: the three
value fields, `none` when any is absent or null. -/
def get_wave_values (r : Row) : Option (ℚ × ℚ × ℚ) :=
  Option.bind (Row.get r "MWHT") fun h =>
  Option.bind (Row.get r "MWPD") fun p =>
  Option.bind (Row.get r "WAVB") fun d =>
  some (h, p, d)

/-- The dedup key compared by the existence query:
`(fk_site, fk_range, datetime)`. -/
def obsKey (o : Obs) : Nat × Int × StoredTime :=
  (o.fk_site, o.fk_range, o.datetime)

/-- `SELECT 1 FROM waves.values WHERE datetime = .. AND fk_site = .. AND
fk_range = ..` as a boolean. -/
def hasTripleB (vals : List Obs) (k : Nat × Int × StoredTime) : Bool :=
  vals.any (fun o => decide (obsKey o = k))

/-- The observation a row would insert: timestamp built, values read,
seconds zeroed by the `strftime` format; `none` when the row is skipped. -/
def candidate (id_site : Nat) (rc : Int) (r : Row) : Option Obs :=
  match get_time r, get_wave_values r with
  | some t, some v =>
    some ⟨id_site, rc, { t with second := 0 }, v.1, v.2.1, v.2.2⟩
  | _, _ => none

/-- Process one decoded row: derive the candidate observation, check for
an existing triple, insert only when absent. -/
def processRow (id_site : Nat) (rc : Int) (vals : List Obs) (r : Row) : List Obs :=
  match candidate id_site rc r with
  | none => vals
  | some o => if hasTripleB vals (obsKey o) then vals else vals ++ [o]

/-- The inner loop over one range-cell table. -/
def loadRows (id_site : Nat) (rc : Int) (vals : List Obs) (rows : List Row) : List Obs :=
  rows.foldl (processRow id_site rc) vals

/-- The outer loop over the decoded document's range-cell tables. -/
def loadTables (id_site : Nat) (vals : List Obs) (tables : List (Int × List Row)) : List Obs :=
  tables.foldl (fun v e => loadRows id_site e.1 v e.2) vals

/-- `convert_into_dictionary`: a list of (code, pk) tuples as a dict,
later tuples winning on a repeated code. -/
def convert_into_dictionary (l : List (String × Nat)) : List (String × Nat) :=
  l.foldl (fun acc kv => dictInsert acc kv.1 kv.2) []

/-- `wave2db` restricted to its store semantics: resolve the site code,
abort with no writes when unknown, otherwise run the idempotent
insert loop over every decoded table. -/
def wave2db (site_name : String) (tables : List (Int × List Row)) (st : Store) : Store :=
  match lookupDict (convert_into_dictionary st.sites) site_name with
  | none => st
  | some id_site => { st with values := loadTables id_site st.values tables }

/-- Uniqueness of the dedup triple across the stored observations. -/
def uniqKeys (vals : List Obs) : Prop :=
  vals.Pairwise (fun a b => obsKey a ≠ obsKey b)

/-! ### The uncaught OverflowError channel of the loader -/

/-- Does an integer fit in a C `int`? `datetime` converts each argument
to one and raises OverflowError — not caught by the loader's
`except (ValueError, TypeError, KeyError)` — when it does not fit. -/
def fitsCInt (n : Int) : Bool :=
  decide ((-2147483648 : Int) ≤ n) && decide (n ≤ (2147483647 : Int))

/-- Outcome of the `Wave.get_time` call inside the loader's try block. -/
inductive TimeOutcome where
  | ok (t : StoredTime)
  | caught
  | overflow
deriving DecidableEq, Repr

/-- `Wave.get_time` as executed by the loader: a missing or null field
raises a caught KeyError/ValueError while it is read (before `datetime`
is reached); with all six fields read, a value outside the C int range
makes `datetime` raise an uncaught OverflowError; an in-range but
invalid calendar date raises a caught ValueError. -/
def get_time_outcome (r : Row) : TimeOutcome :=
  match getIntField r "TYRS", getIntField r "TMON", getIntField r "TDAY",
        getIntField r "THRS", getIntField r "TMIN", getIntField r "TSEC" with
  | some y, some mo, some d, some h, some mi, some s =>
    if fitsCInt y && fitsCInt mo && fitsCInt d && fitsCInt h && fitsCInt mi && fitsCInt s then
      if validDateTime y mo d h mi s then TimeOutcome.ok ⟨y, mo, d, h, mi, s⟩
      else TimeOutcome.caught
    else TimeOutcome.overflow
  | _, _, _, _, _, _ => TimeOutcome.caught

/-- One row of the loader's inner loop with the uncaught-exception
channel: an OverflowError from `datetime` escapes the row-level
`except` and aborts the call; every caught error or successful insert
behaves as `processRow`. -/
def processRowE (id_site : Nat) (rc : Int) (vals : List Obs) (r : Row) :
    Except Unit (List Obs) :=
  match get_time_outcome r with
  | TimeOutcome.overflow => Except.error ()
  | _ => Except.ok (processRow id_site rc vals r)

/-- The inner row loop with the uncaught-exception channel. -/
def loadRowsE (id_site : Nat) (rc : Int) (vals : List Obs) :
    List Row → Except Unit (List Obs)
  | [] => Except.ok vals
  | r :: rs =>
    match processRowE id_site rc vals r with
    | Except.error e => Except.error e
    | Except.ok v => loadRowsE id_site rc v rs

/-- The outer table loop with the uncaught-exception channel. -/
def loadTablesE (id_site : Nat) (vals : List Obs) :
    List (Int × List Row) → Except Unit (List Obs)
  | [] => Except.ok vals
  | e :: es =>
    match loadRowsE id_site e.1 vals e.2 with
    | Except.error err => Except.error err
    | Except.ok v => loadTablesE id_site v es

/-- `wave2db` with the uncaught-exception channel: an OverflowError
aborts the call through the outer `except`; the `with connection`
context rolls the transaction back, so the store is left exactly as
before the call. -/
def wave2db_run (site_name : String) (tables : List (Int × List Row)) (st : Store) : Store :=
  match lookupDict (convert_into_dictionary st.sites) site_name with
  | none => st
  | some id_site =>
    match loadTablesE id_site st.values tables with
    | Except.error _ => st
    | Except.ok v => { st with values := v }

/-! ### Loader lemmas -/

theorem candidate_second_zero (id_site : Nat) (rc : Int) (r : Row) (o : Obs)
    (h : candidate id_site rc r = some o) : o.datetime.second = 0 := by
  unfold candidate at h
  cases ht : get_time r with
  | none => rw [ht] at h; exact absurd h (by simp)
  | some t =>
    cases hv : get_wave_values r with
    | none => rw [ht, hv] at h; exact absurd h (by simp)
    | some v =>
      rw [ht, hv] at h
      cases h
      rfl

theorem processRow_cases (id_site : Nat) (rc : Int) (vals : List Obs) (r : Row) :
    processRow id_site rc vals r = vals ∨
    ∃ o, candidate id_site rc r = some o ∧ hasTripleB vals (obsKey o) = false ∧
      processRow id_site rc vals r = vals ++ [o] := by
  unfold processRow
  cases hc : candidate id_site rc r with
  | none => exact Or.inl rfl
  | some o =>
    by_cases hh : hasTripleB vals (obsKey o)
    · exact Or.inl (by simp [hh])
    · exact Or.inr ⟨o, rfl, by simp [hh], by simp [hh]⟩

theorem processRow_extend (id_site : Nat) (rc : Int) (vals : List Obs) (r : Row) :
    ∃ l, processRow id_site rc vals r = vals ++ l := by
  rcases processRow_cases id_site rc vals r with h | ⟨o, _, _, h⟩
  · exact ⟨[], by simp [h]⟩
  · exact ⟨[o], h⟩

theorem loadRows_extend (id_site : Nat) (rc : Int) (rows : List Row) (vals : List Obs) :
    ∃ l, loadRows id_site rc vals rows = vals ++ l := by
  induction rows generalizing vals with
  | nil => exact ⟨[], by simp [loadRows]⟩
  | cons r rs ih =>
    obtain ⟨l₁, h₁⟩ := processRow_extend id_site rc vals r
    obtain ⟨l₂, h₂⟩ := ih (processRow id_site rc vals r)
    exact ⟨l₁ ++ l₂, by simp [loadRows] at h₂ ⊢; rw [h₂, h₁, List.append_assoc]⟩

theorem loadTables_extend (id_site : Nat) (tables : List (Int × List Row)) (vals : List Obs) :
    ∃ l, loadTables id_site vals tables = vals ++ l := by
  induction tables generalizing vals with
  | nil => exact ⟨[], by simp [loadTables]⟩
  | cons e es ih =>
    obtain ⟨l₁, h₁⟩ := loadRows_extend id_site e.1 e.2 vals
    obtain ⟨l₂, h₂⟩ := ih (loadRows id_site e.1 vals e.2)
    exact ⟨l₁ ++ l₂, by simp [loadTables] at h₂ ⊢; rw [h₂, h₁, List.append_assoc]⟩

theorem hasTripleB_append_left (vals l : List Obs) (k : Nat × Int × StoredTime)
    (h : hasTripleB vals k = true) : hasTripleB (vals ++ l) k = true := by
  simp [hasTripleB] at h ⊢
  exact Or.inl h

theorem processRow_has (id_site : Nat) (rc : Int) (vals : List Obs) (r : Row) (o : Obs)
    (hc : candidate id_site rc r = some o) :
    hasTripleB (processRow id_site rc vals r) (obsKey o) = true := by
  simp only [processRow, hc]
  by_cases hh : hasTripleB vals (obsKey o)
  · simp [hh]
  · rw [if_neg hh]
    simp only [hasTripleB, List.any_eq_true, decide_eq_true_eq]
    exact ⟨o, List.mem_append_right vals (List.mem_singleton_self o), rfl⟩

theorem processRow_mono (id_site : Nat) (rc : Int) (vals : List Obs) (r : Row)
    (k : Nat × Int × StoredTime) (h : hasTripleB vals k = true) :
    hasTripleB (processRow id_site rc vals r) k = true := by
  obtain ⟨l, hl⟩ := processRow_extend id_site rc vals r
  rw [hl]
  exact hasTripleB_append_left vals l k h

theorem loadRows_mono (id_site : Nat) (rc : Int) (rows : List Row) (vals : List Obs)
    (k : Nat × Int × StoredTime) (h : hasTripleB vals k = true) :
    hasTripleB (loadRows id_site rc vals rows) k = true := by
  obtain ⟨l, hl⟩ := loadRows_extend id_site rc rows vals
  rw [hl]
  exact hasTripleB_append_left vals l k h

theorem loadTables_mono (id_site : Nat) (tables : List (Int × List Row)) (vals : List Obs)
    (k : Nat × Int × StoredTime) (h : hasTripleB vals k = true) :
    hasTripleB (loadTables id_site vals tables) k = true := by
  obtain ⟨l, hl⟩ := loadTables_extend id_site tables vals
  rw [hl]
  exact hasTripleB_append_left vals l k h

theorem loadRows_sat (id_site : Nat) (rc : Int) (rows : List Row) (vals : List Obs)
    (r : Row) (hr : r ∈ rows) (o : Obs) (hc : candidate id_site rc r = some o) :
    hasTripleB (loadRows id_site rc vals rows) (obsKey o) = true := by
  induction rows generalizing vals with
  | nil => cases hr
  | cons r₀ rs ih =>
    rcases List.mem_cons.mp hr with rfl | hmem
    · have h₀ := processRow_has id_site rc vals r o hc
      simpa [loadRows] using loadRows_mono id_site rc rs (processRow id_site rc vals r) (obsKey o) h₀
    · simpa [loadRows] using ih (processRow id_site rc vals r₀) hmem

theorem loadTables_sat (id_site : Nat) (tables : List (Int × List Row)) (vals : List Obs)
    (e : Int × List Row) (he : e ∈ tables) (r : Row) (hr : r ∈ e.2) (o : Obs)
    (hc : candidate id_site e.1 r = some o) :
    hasTripleB (loadTables id_site vals tables) (obsKey o) = true := by
  induction tables generalizing vals with
  | nil => cases he
  | cons e₀ es ih =>
    rcases List.mem_cons.mp he with rfl | hmem
    · have h₀ := loadRows_sat id_site e.1 e.2 vals r hr o hc
      simpa [loadTables] using
        loadTables_mono id_site es (loadRows id_site e.1 vals e.2) (obsKey o) h₀
    · simpa [loadTables] using ih (loadRows id_site e₀.1 vals e₀.2) hmem

theorem processRow_skip (id_site : Nat) (rc : Int) (vals : List Obs) (r : Row)
    (h : ∀ o, candidate id_site rc r = some o → hasTripleB vals (obsKey o) = true) :
    processRow id_site rc vals r = vals := by
  unfold processRow
  cases hc : candidate id_site rc r with
  | none => rfl
  | some o => simp [h o hc]

theorem loadRows_id_of_sat (id_site : Nat) (rc : Int) (rows : List Row) (vals : List Obs)
    (h : ∀ r ∈ rows, ∀ o, candidate id_site rc r = some o → hasTripleB vals (obsKey o) = true) :
    loadRows id_site rc vals rows = vals := by
  induction rows with
  | nil => rfl
  | cons r rs ih =>
    have h₀ : processRow id_site rc vals r = vals :=
      processRow_skip id_site rc vals r (h r (List.mem_cons_self r rs))
    simp [loadRows, h₀]
    simpa [loadRows] using ih (fun r' hr' => h r' (List.mem_cons_of_mem r hr'))

theorem loadTables_id_of_sat (id_site : Nat) (tables : List (Int × List Row)) (vals : List Obs)
    (h : ∀ e ∈ tables, ∀ r ∈ e.2, ∀ o, candidate id_site e.1 r = some o →
      hasTripleB vals (obsKey o) = true) :
    loadTables id_site vals tables = vals := by
  induction tables with
  | nil => rfl
  | cons e es ih =>
    have h₀ : loadRows id_site e.1 vals e.2 = vals :=
      loadRows_id_of_sat id_site e.1 e.2 vals (fun r hr => h e (List.mem_cons_self e es) r hr)
    simp [loadTables, h₀]
    simpa [loadTables] using ih (fun e' he' => h e' (List.mem_cons_of_mem e he'))

theorem loadTables_idem (id_site : Nat) (tables : List (Int × List Row)) (vals : List Obs) :
    loadTables id_site (loadTables id_site vals tables) tables =
      loadTables id_site vals tables :=
  loadTables_id_of_sat id_site tables (loadTables id_site vals tables)
    (fun e he r hr o hc => loadTables_sat id_site tables vals e he r hr o hc)

theorem processRow_uniq (id_site : Nat) (rc : Int) (vals : List Obs) (r : Row)
    (h : uniqKeys vals) : uniqKeys (processRow id_site rc vals r) := by
  rcases processRow_cases id_site rc vals r with heq | ⟨o, _, habs, heq⟩
  · rwa [heq]
  · rw [heq]
    unfold uniqKeys
    rw [List.pairwise_append]
    refine ⟨h, List.pairwise_singleton _ _, ?_⟩
    intro a ha b hb
    simp at hb
    subst hb
    simp [hasTripleB, List.any_eq_true] at habs
    exact habs a ha

theorem loadRows_uniq (id_site : Nat) (rc : Int) (rows : List Row) (vals : List Obs)
    (h : uniqKeys vals) : uniqKeys (loadRows id_site rc vals rows) := by
  induction rows generalizing vals with
  | nil => exact h
  | cons r rs ih =>
    simpa [loadRows] using ih (processRow id_site rc vals r) (processRow_uniq id_site rc vals r h)

theorem loadTables_uniq (id_site : Nat) (tables : List (Int × List Row)) (vals : List Obs)
    (h : uniqKeys vals) : uniqKeys (loadTables id_site vals tables) := by
  induction tables generalizing vals with
  | nil => exact h
  | cons e es ih =>
    simpa [loadTables] using
      ih (loadRows id_site e.1 vals e.2) (loadRows_uniq id_site e.1 e.2 vals h)

theorem processRow_mem (id_site : Nat) (rc : Int) (vals : List Obs) (r : Row) (o' : Obs)
    (h : o' ∈ processRow id_site rc vals r) :
    o' ∈ vals ∨ candidate id_site rc r = some o' := by
  rcases processRow_cases id_site rc vals r with heq | ⟨o, hc, _, heq⟩
  · rw [heq] at h
    exact Or.inl h
  · rw [heq] at h
    rcases List.mem_append.mp h with h | h
    · exact Or.inl h
    · simp at h
      subst h
      exact Or.inr hc

theorem loadRows_mem (id_site : Nat) (rc : Int) (rows : List Row) (vals : List Obs) (o : Obs)
    (h : o ∈ loadRows id_site rc vals rows) : o ∈ vals ∨ o.datetime.second = 0 := by
  induction rows generalizing vals with
  | nil => exact Or.inl h
  | cons r rs ih =>
    rcases ih (processRow id_site rc vals r) (by simpa [loadRows] using h) with h' | h'
    · rcases processRow_mem id_site rc vals r o h' with h'' | h''
      · exact Or.inl h''
      · exact Or.inr (candidate_second_zero id_site rc r o h'')
    · exact Or.inr h'

theorem loadTables_mem (id_site : Nat) (tables : List (Int × List Row)) (vals : List Obs)
    (o : Obs) (h : o ∈ loadTables id_site vals tables) :
    o ∈ vals ∨ o.datetime.second = 0 := by
  induction tables generalizing vals with
  | nil => exact Or.inl h
  | cons e es ih =>
    rcases ih (loadRows id_site e.1 vals e.2) (by simpa [loadTables] using h) with h' | h'
    · exact loadRows_mem id_site e.1 e.2 vals o h'
    · exact Or.inr h'

theorem get_time_some (r : Row) (t : StoredTime) (h : get_time r = some t) :
    getIntField r "TYRS" = some t.year ∧ getIntField r "TMON" = some t.month ∧
    getIntField r "TDAY" = some t.day ∧ getIntField r "THRS" = some t.hour ∧
    getIntField r "TMIN" = some t.minute ∧ getIntField r "TSEC" = some t.second ∧
    validDateTime t.year t.month t.day t.hour t.minute t.second = true := by
  cases hY : getIntField r "TYRS" with
  | none => simp [get_time, hY] at h
  | some y =>
  cases hMO : getIntField r "TMON" with
  | none => simp [get_time, hY, hMO] at h
  | some mo =>
  cases hD : getIntField r "TDAY" with
  | none => simp [get_time, hY, hMO, hD] at h
  | some d =>
  cases hH : getIntField r "THRS" with
  | none => simp [get_time, hY, hMO, hD, hH] at h
  | some hh =>
  cases hMI : getIntField r "TMIN" with
  | none => simp [get_time, hY, hMO, hD, hH, hMI] at h
  | some mi =>
  cases hS : getIntField r "TSEC" with
  | none => simp [get_time, hY, hMO, hD, hH, hMI, hS] at h
  | some s =>
  simp only [get_time, hY, hMO, hD, hH, hMI, hS, Option.some_bind] at h
  split at h
  next hv =>
    injection h with h'
    subst h'
    exact ⟨rfl, rfl, rfl, rfl, rfl, rfl, hv⟩
  next hv => cases h

theorem get_wave_values_some (r : Row) (v : ℚ × ℚ × ℚ) (h : get_wave_values r = some v) :
    Row.get r "MWHT" = some v.1 ∧ Row.get r "MWPD" = some v.2.1 ∧
    Row.get r "WAVB" = some v.2.2 := by
  cases hH : Row.get r "MWHT" with
  | none => simp [get_wave_values, hH] at h
  | some hq =>
  cases hP : Row.get r "MWPD" with
  | none => simp [get_wave_values, hH, hP] at h
  | some pq =>
  cases hD : Row.get r "WAVB" with
  | none => simp [get_wave_values, hH, hP, hD] at h
  | some dq =>
  simp only [get_wave_values, hH, hP, hD, Option.some_bind] at h
  injection h with h'
  subst h'
  exact ⟨rfl, rfl, rfl⟩

theorem candidate_none_of_time (id_site : Nat) (rc : Int) (r : Row)
    (h : get_time r = none) : candidate id_site rc r = none := by
  simp [candidate, h]

theorem candidate_none_of_values (id_site : Nat) (rc : Int) (r : Row)
    (h : get_wave_values r = none) : candidate id_site rc r = none := by
  cases ht : get_time r <;> simp [candidate, ht, h]

theorem get_wave_values_none_of_field (r : Row)
    (h : Row.get r "MWHT" = none ∨ Row.get r "MWPD" = none ∨ Row.get r "WAVB" = none) :
    get_wave_values r = none := by
  cases hg : get_wave_values r with
  | none => rfl
  | some v =>
    obtain ⟨h1, h2, h3⟩ := get_wave_values_some r v hg
    rcases h with h | h | h <;> simp [h] at h1 h2 h3

theorem candidate_some (id_site : Nat) (rc : Int) (r : Row) (o : Obs)
    (hc : candidate id_site rc r = some o) :
    ∃ t v, get_time r = some t ∧ get_wave_values r = some v ∧
      o = ⟨id_site, rc, { t with second := 0 }, v.1, v.2.1, v.2.2⟩ := by
  unfold candidate at hc
  cases ht : get_time r with
  | none => rw [ht] at hc; cases hc
  | some t =>
    cases hv : get_wave_values r with
    | none => rw [ht, hv] at hc; cases hc
    | some v =>
      rw [ht, hv] at hc
      injection hc with hc'
      exact ⟨t, v, rfl, rfl, hc'.symm⟩

/-! ### Claim theorems: loader -/

/-- C5: a data field whose text equals the sentinel literal `999.00`
decodes to null (the same value a missing field gets), and any row whose
height (`MWHT`), period (`MWPD`) or direction (`WAVB`) field is null is
skipped by the loader: no observation is stored for it. -/
theorem sentinel_null_and_row_skip :
    parseCell "999.00" = none
    ∧ ∀ (id_site : Nat) (rc : Int) (vals : List Obs) (r : Row),
        (Row.get r "MWHT" = none ∨ Row.get r "MWPD" = none ∨ Row.get r "WAVB" = none) →
        processRow id_site rc vals r = vals := by
  constructor
  · decide
  · intro id_site rc vals r h
    have hw := get_wave_values_none_of_field r h
    unfold processRow
    rw [candidate_none_of_values id_site rc r hw]

/-- Witness for C5: a concrete row with a null height is left unstored. -/
theorem sentinel_null_and_row_skip_witness :
    processRow 1 2 [] [("MWHT", none), ("MWPD", some 5), ("WAVB", some 6)] = [] :=
  sentinel_null_and_row_skip.2 1 2 [] [("MWHT", none), ("MWPD", some 5), ("WAVB", some 6)]
    (Or.inl (by decide))

/-- C6: when the site name does not resolve through the fetched
`waves.sites` dictionary, `wave2db` performs zero writes: the store is
returned unchanged. -/
theorem wave2db_unknown_site (name : String) (tables : List (Int × List Row)) (st : Store)
    (h : lookupDict (convert_into_dictionary st.sites) name = none) :
    wave2db name tables st = st := by
  simp [wave2db, h]

/-- Witness for C6: a concrete load for an absent site code leaves a
concrete store untouched. -/
theorem wave2db_unknown_site_witness :
    wave2db "NOPE" [(1, [[("MWHT", some 1)]])] ⟨[("PRIO", 1), ("SILL", 2)], []⟩
      = ⟨[("PRIO", 1), ("SILL", 2)], []⟩ :=
  wave2db_unknown_site "NOPE" [(1, [[("MWHT", some 1)]])]
    ⟨[("PRIO", 1), ("SILL", 2)], []⟩ (by decide)

theorem get_time_outcome_not_overflow (r : Row)
    (hfit : ∀ c ∈ ["TYRS", "TMON", "TDAY", "THRS", "TMIN", "TSEC"],
      Option.all fitsCInt (getIntField r c) = true) :
    get_time_outcome r ≠ TimeOutcome.overflow := by
  have hY := hfit "TYRS" (by simp)
  have hMO := hfit "TMON" (by simp)
  have hD := hfit "TDAY" (by simp)
  have hH := hfit "THRS" (by simp)
  have hMI := hfit "TMIN" (by simp)
  have hS := hfit "TSEC" (by simp)
  unfold get_time_outcome
  cases h1 : getIntField r "TYRS" with
  | none => simp
  | some y =>
  cases h2 : getIntField r "TMON" with
  | none => simp
  | some mo =>
  cases h3 : getIntField r "TDAY" with
  | none => simp
  | some d =>
  cases h4 : getIntField r "THRS" with
  | none => simp
  | some hh =>
  cases h5 : getIntField r "TMIN" with
  | none => simp
  | some mi =>
  cases h6 : getIntField r "TSEC" with
  | none => simp
  | some s =>
  rw [h1] at hY
  rw [h2] at hMO
  rw [h3] at hD
  rw [h4] at hH
  rw [h5] at hMI
  rw [h6] at hS
  simp only [Option.all] at hY hMO hD hH hMI hS
  simp only [hY, hMO, hD, hH, hMI, hS, Bool.and_self, if_true]
  split <;> simp

theorem processRowE_ok (id_site : Nat) (rc : Int) (vals : List Obs) (r : Row)
    (h : get_time_outcome r ≠ TimeOutcome.overflow) :
    processRowE id_site rc vals r = Except.ok (processRow id_site rc vals r) := by
  unfold processRowE
  cases ho : get_time_outcome r with
  | ok t => rfl
  | caught => rfl
  | overflow => exact absurd ho h

theorem loadRowsE_append (id_site : Nat) (rc : Int) (vals : List Obs) (xs ys : List Row) :
    loadRowsE id_site rc vals (xs ++ ys)
      = match loadRowsE id_site rc vals xs with
        | Except.error e => Except.error e
        | Except.ok v => loadRowsE id_site rc v ys := by
  induction xs generalizing vals with
  | nil => rfl
  | cons x xs' ih =>
    rw [List.cons_append]
    show (match processRowE id_site rc vals x with
      | Except.error e => Except.error e
      | Except.ok v => loadRowsE id_site rc v (xs' ++ ys)) =
      match (match processRowE id_site rc vals x with
        | Except.error e => Except.error e
        | Except.ok v => loadRowsE id_site rc v xs') with
      | Except.error e => Except.error e
      | Except.ok v => loadRowsE id_site rc v ys
    cases processRowE id_site rc vals x with
    | error e => rfl
    | ok v => exact ih v

/-- C7 (amended): for a row whose present timestamp fields all fit in a
C `int`, a null timestamp field, an invalid calendar date-time or a
null value field skips that single row, and loading of the remaining
rows continues exactly as if the row were absent; but a row whose six
timestamp fields are all present and include a value outside the
C `int` range raises an uncaught OverflowError that aborts the whole
load call, whose transaction is rolled back, leaving the store
unchanged. -/
theorem row_problem_skips_row_only :
    (∀ (id_site : Nat) (rc : Int) (vals : List Obs) (pre post : List Row) (r : Row),
      (∀ c ∈ ["TYRS", "TMON", "TDAY", "THRS", "TMIN", "TSEC"],
        Option.all fitsCInt (getIntField r c) = true) →
      (getIntField r "TYRS" = none ∨ getIntField r "TMON" = none
        ∨ getIntField r "TDAY" = none ∨ getIntField r "THRS" = none
        ∨ getIntField r "TMIN" = none ∨ getIntField r "TSEC" = none
        ∨ (∃ y mo d hh mi s, getIntField r "TYRS" = some y ∧ getIntField r "TMON" = some mo ∧
            getIntField r "TDAY" = some d ∧ getIntField r "THRS" = some hh ∧
            getIntField r "TMIN" = some mi ∧ getIntField r "TSEC" = some s ∧
            validDateTime y mo d hh mi s = false)
        ∨ Row.get r "MWHT" = none ∨ Row.get r "MWPD" = none ∨ Row.get r "WAVB" = none) →
      loadRowsE id_site rc vals (pre ++ r :: post) = loadRowsE id_site rc vals (pre ++ post))
    ∧ (∀ (id_site : Nat) (rc : Int) (vals : List Obs) (r : Row) (y mo d hh mi s : Int),
      getIntField r "TYRS" = some y → getIntField r "TMON" = some mo →
      getIntField r "TDAY" = some d → getIntField r "THRS" = some hh →
      getIntField r "TMIN" = some mi → getIntField r "TSEC" = some s →
      (fitsCInt y && fitsCInt mo && fitsCInt d && fitsCInt hh && fitsCInt mi && fitsCInt s)
        = false →
      processRowE id_site rc vals r = Except.error ())
    ∧ (∀ (name : String) (tables : List (Int × List Row)) (st : Store) (id_site : Nat),
      lookupDict (convert_into_dictionary st.sites) name = some id_site →
      loadTablesE id_site st.values tables = Except.error () →
      wave2db_run name tables st = st) := by
  refine ⟨?_, ?_, ?_⟩
  · intro id_site rc vals pre post r hfit h
    have hcand : candidate id_site rc r = none := by
      cases hg : get_time r with
      | none => exact candidate_none_of_time _ _ _ hg
      | some t =>
        obtain ⟨f1, f2, f3, f4, f5, f6, fv⟩ := get_time_some r t hg
        rcases h with h | h | h | h | h | h |
          ⟨y, mo, d, hh, mi, s, hy, hmo, hd, hhh, hmi, hs, hval⟩ | h | h | h
        · rw [h] at f1; cases f1
        · rw [h] at f2; cases f2
        · rw [h] at f3; cases f3
        · rw [h] at f4; cases f4
        · rw [h] at f5; cases f5
        · rw [h] at f6; cases f6
        · rw [f1] at hy; injection hy with e1
          rw [f2] at hmo; injection hmo with e2
          rw [f3] at hd; injection hd with e3
          rw [f4] at hhh; injection hhh with e4
          rw [f5] at hmi; injection hmi with e5
          rw [f6] at hs; injection hs with e6
          subst e1; subst e2; subst e3; subst e4; subst e5; subst e6
          rw [fv] at hval
          cases hval
        · exact candidate_none_of_values _ _ _ (get_wave_values_none_of_field r (Or.inl h))
        · exact candidate_none_of_values _ _ _
            (get_wave_values_none_of_field r (Or.inr (Or.inl h)))
        · exact candidate_none_of_values _ _ _
            (get_wave_values_none_of_field r (Or.inr (Or.inr h)))
    have hnov := get_time_outcome_not_overflow r hfit
    have hskip : ∀ v : List Obs, processRowE id_site rc v r = Except.ok v := by
      intro v
      rw [processRowE_ok id_site rc v r hnov]
      have hp : processRow id_site rc v r = v := by
        unfold processRow
        rw [hcand]
      rw [hp]
    rw [loadRowsE_append, loadRowsE_append]
    cases hpre : loadRowsE id_site rc vals pre with
    | error e => rfl
    | ok v =>
      show loadRowsE id_site rc v (r :: post) = loadRowsE id_site rc v post
      show (match processRowE id_site rc v r with
        | Except.error e => Except.error e
        | Except.ok v' => loadRowsE id_site rc v' post) = _
      rw [hskip v]
  · intro id_site rc vals r y mo d hh mi s hy hmo hd hhh hmi hs hnof
    have ho : get_time_outcome r = TimeOutcome.overflow := by
      simp [get_time_outcome, hy, hmo, hd, hhh, hmi, hs, hnof]
    simp [processRowE, ho]
  · intro name tables st id_site hlook herr
    simp [wave2db_run, hlook, herr]

/-- Counterexample for C7 as stated: the first row's year field holds
2147483648, one past the C `int` maximum; `datetime` raises an uncaught
OverflowError, so the call aborts and the valid second row — which a
skip-and-continue loader would store — is never loaded. -/
theorem row_problem_skips_row_only_cex :
    loadRowsE 1 2 []
      [[("TYRS", some 2147483648), ("TMON", some 2), ("TDAY", some 1), ("THRS", some 3),
        ("TMIN", some 4), ("TSEC", some 5), ("MWHT", some 1), ("MWPD", some 2),
        ("WAVB", some 3)],
       [("TYRS", some 2022), ("TMON", some 2), ("TDAY", some 1), ("THRS", some 3),
        ("TMIN", some 4), ("TSEC", some 5), ("MWHT", some 1), ("MWPD", some 2),
        ("WAVB", some 3)]] = Except.error ()
    ∧ loadRowsE 1 2 []
      [[("TYRS", some 2022), ("TMON", some 2), ("TDAY", some 1), ("THRS", some 3),
        ("TMIN", some 4), ("TSEC", some 5), ("MWHT", some 1), ("MWPD", some 2),
        ("WAVB", some 3)]]
      = Except.ok [⟨1, 2, ⟨2022, 2, 1, 3, 4, 0⟩, 1, 2, 3⟩] :=
  ⟨rfl, rfl⟩

/-- Witness for C7 (amended): a concrete table whose second row has a
null year (and in-range fields elsewhere) is loaded exactly like the
table without that row. -/
theorem row_problem_skips_row_only_witness :
    loadRowsE 1 2 []
      ([[("TYRS", some 2022), ("TMON", some 2), ("TDAY", some 1), ("THRS", some 3),
         ("TMIN", some 4), ("TSEC", some 5), ("MWHT", some 1), ("MWPD", some 2),
         ("WAVB", some 3)]] ++
        [("TYRS", none), ("TMON", some 2), ("TDAY", some 1), ("THRS", some 3),
         ("TMIN", some 4), ("TSEC", some 5), ("MWHT", some 1), ("MWPD", some 2),
         ("WAVB", some 3)] :: []) =
    loadRowsE 1 2 []
      ([[("TYRS", some 2022), ("TMON", some 2), ("TDAY", some 1), ("THRS", some 3),
         ("TMIN", some 4), ("TSEC", some 5), ("MWHT", some 1), ("MWPD", some 2),
         ("WAVB", some 3)]] ++ []) :=
  row_problem_skips_row_only.1 1 2 []
    [[("TYRS", some 2022), ("TMON", some 2), ("TDAY", some 1), ("THRS", some 3),
      ("TMIN", some 4), ("TSEC", some 5), ("MWHT", some 1), ("MWPD", some 2),
      ("WAVB", some 3)]] []
    [("TYRS", none), ("TMON", some 2), ("TDAY", some 1), ("THRS", some 3),
     ("TMIN", some 4), ("TSEC", some 5), ("MWHT", some 1), ("MWPD", some 2),
     ("WAVB", some 3)]
    (by decide) (Or.inl (by decide))

/-- C1: a candidate observation is inserted only when its
(site, range cell, timestamp) triple is absent, and an existing
observation is never modified (the stored list is only ever extended);
the loader preserves uniqueness of the triple; and loading the same
decoded document for the same site a second time leaves the stored
observations unchanged. -/
theorem wave2db_dedup_idempotent (name : String) (tables : List (Int × List Row)) (st : Store) :
    (∃ l, (wave2db name tables st).values = st.values ++ l)
    ∧ (uniqKeys st.values → uniqKeys (wave2db name tables st).values)
    ∧ wave2db name tables (wave2db name tables st) = wave2db name tables st := by
  cases hs : lookupDict (convert_into_dictionary st.sites) name with
  | none =>
    have h1 : wave2db name tables st = st := by simp [wave2db, hs]
    exact ⟨⟨[], by simp [h1]⟩, fun h => by rwa [h1], by rw [h1, h1]⟩
  | some id_site =>
    have h1 : wave2db name tables st
        = { st with values := loadTables id_site st.values tables } := by
      simp [wave2db, hs]
    refine ⟨?_, ?_, ?_⟩
    · rw [h1]
      exact loadTables_extend id_site tables st.values
    · intro hu
      rw [h1]
      exact loadTables_uniq id_site tables st.values hu
    · rw [h1]
      simp only [wave2db, hs]
      rw [loadTables_idem]

/-- Witness for C1: loading a concrete one-row document into an empty
store keeps the triple-uniqueness invariant. -/
theorem wave2db_dedup_idempotent_witness :
    uniqKeys (wave2db "PRIO"
      [(3, [[("TYRS", some 2022), ("TMON", some 2), ("TDAY", some 1), ("THRS", some 3),
             ("TMIN", some 4), ("TSEC", some 5), ("MWHT", some 1), ("MWPD", some 2),
             ("WAVB", some 3)]])]
      ⟨[("PRIO", 1)], []⟩).values :=
  (wave2db_dedup_idempotent "PRIO"
    [(3, [[("TYRS", some 2022), ("TMON", some 2), ("TDAY", some 1), ("THRS", some 3),
           ("TMIN", some 4), ("TSEC", some 5), ("MWHT", some 1), ("MWPD", some 2),
           ("WAVB", some 3)]])]
    ⟨[("PRIO", 1)], []⟩).2.1 List.Pairwise.nil

/-- C2: every observation the loader adds carries a timestamp whose
seconds are normalized to zero; the row's seconds field is nevertheless
parsed for validity (an out-of-range seconds value invalidates the
timestamp and skips the row); and two rows whose timestamps differ only
in seconds map to the same stored triple, so the second row inserts
nothing. -/
theorem wave2db_minute_truncation :
    (∀ (name : String) (tables : List (Int × List Row)) (st : Store) (o : Obs),
        o ∈ (wave2db name tables st).values → o ∈ st.values ∨ o.datetime.second = 0)
    ∧ (∀ (r : Row) (s : Int), getIntField r "TSEC" = some s → ¬(0 ≤ s ∧ s ≤ 59) →
        get_time r = none)
    ∧ (∀ (id_site : Nat) (rc : Int) (vals : List Obs) (r r' : Row) (t t' : StoredTime)
        (v : ℚ × ℚ × ℚ),
        get_time r = some t → get_time r' = some t' → get_wave_values r = some v →
        t'.year = t.year → t'.month = t.month → t'.day = t.day → t'.hour = t.hour →
        t'.minute = t.minute →
        processRow id_site rc (processRow id_site rc vals r) r' = processRow id_site rc vals r) := by
  refine ⟨?_, ?_, ?_⟩
  · intro name tables st o ho
    cases hs : lookupDict (convert_into_dictionary st.sites) name with
    | none => simp [wave2db, hs] at ho; exact Or.inl ho
    | some id_site =>
      simp only [wave2db, hs] at ho
      exact loadTables_mem id_site tables st.values o ho
  · intro r s hsec hbad
    cases hg : get_time r with
    | none => rfl
    | some t =>
      obtain ⟨_, _, _, _, _, f6, fv⟩ := get_time_some r t hg
      rw [f6] at hsec
      injection hsec with e
      simp only [validDateTime, Bool.and_eq_true, decide_eq_true_eq] at fv
      exact absurd ⟨e ▸ fv.1.2, e ▸ fv.2⟩ hbad
  · intro id_site rc vals r r' t t' v ht ht' hv h1 h2 h3 h4 h5
    have hco : candidate id_site rc r
        = some ⟨id_site, rc, { t with second := 0 }, v.1, v.2.1, v.2.2⟩ := by
      simp [candidate, ht, hv]
    have hpresent := processRow_has id_site rc vals r _ hco
    apply processRow_skip
    intro o' hco'
    obtain ⟨t2, v2, ht2, _, ho'⟩ := candidate_some id_site rc r' o' hco'
    rw [ht'] at ht2
    injection ht2 with ht2e
    have hkey : obsKey o'
        = obsKey (⟨id_site, rc, { t with second := 0 }, v.1, v.2.1, v.2.2⟩ : Obs) := by
      subst ho'
      subst ht2e
      simp only [obsKey]
      cases t with
      | mk ty tmo td th tmi ts =>
        cases t' with
        | mk ty' tmo' td' th' tmi' ts' =>
          simp at h1 h2 h3 h4 h5
          simp [h1, h2, h3, h4, h5]
    rw [hkey]
    exact hpresent

/-- Witness for C2: a concrete second row differing from the first only
in its seconds (and values) leaves the store exactly as after the first
row. -/
theorem wave2db_minute_truncation_witness :
    processRow 1 3
      (processRow 1 3 []
        [("TYRS", some 2022), ("TMON", some 2), ("TDAY", some 1), ("THRS", some 3),
         ("TMIN", some 4), ("TSEC", some 5), ("MWHT", some 1), ("MWPD", some 2),
         ("WAVB", some 3)])
      [("TYRS", some 2022), ("TMON", some 2), ("TDAY", some 1), ("THRS", some 3),
       ("TMIN", some 4), ("TSEC", some 44), ("MWHT", some 9), ("MWPD", some 8),
       ("WAVB", some 7)]
    = processRow 1 3 []
        [("TYRS", some 2022), ("TMON", some 2), ("TDAY", some 1), ("THRS", some 3),
         ("TMIN", some 4), ("TSEC", some 5), ("MWHT", some 1), ("MWPD", some 2),
         ("WAVB", some 3)] :=
  wave2db_minute_truncation.2.2 1 3 []
    [("TYRS", some 2022), ("TMON", some 2), ("TDAY", some 1), ("THRS", some 3),
     ("TMIN", some 4), ("TSEC", some 5), ("MWHT", some 1), ("MWPD", some 2),
     ("WAVB", some 3)]
    [("TYRS", some 2022), ("TMON", some 2), ("TDAY", some 1), ("THRS", some 3),
     ("TMIN", some 4), ("TSEC", some 44), ("MWHT", some 9), ("MWPD", some 8),
     ("WAVB", some 7)]
    ⟨2022, 2, 1, 3, 4, 5⟩ ⟨2022, 2, 1, 3, 4, 44⟩ (1, 2, 3)
    (by decide) (by decide) (by decide) rfl rfl rfl rfl rfl

/-! ### Dictionary lemmas -/

theorem lookup_map_set_self {α β : Type} [DecidableEq α] (t : List (α × β)) (k : α) (v : β)
    (h : t.any (fun p => decide (p.1 = k)) = true) :
    lookupDict (t.map (fun p => if p.1 = k then (k, v) else p)) k = some v := by
  induction t with
  | nil => simp at h
  | cons p ps ih =>
    by_cases hp : p.1 = k
    · simp [lookupDict, hp]
    · have h' : ps.any (fun p => decide (p.1 = k)) = true := by
        simp [List.any_cons, hp] at h
        simp [List.any_eq_true]
        exact h
      simpa [lookupDict, hp] using ih h'

theorem lookup_append_single_self {α β : Type} [DecidableEq α] (t : List (α × β)) (k : α) (v : β)
    (h : t.any (fun p => decide (p.1 = k)) = false) :
    lookupDict (t ++ [(k, v)]) k = some v := by
  induction t with
  | nil => simp [lookupDict]
  | cons p ps ih =>
    have hp : ¬(p.1 = k) := by
      simp [List.any_cons] at h
      exact h.1
    have h' : ps.any (fun p => decide (p.1 = k)) = false := by
      simp [List.any_cons] at h
      simp [List.any_eq_false]
      exact h.2
    simpa [lookupDict, hp] using ih h'

theorem dictInsert_lookup_self {α β : Type} [DecidableEq α] (t : List (α × β)) (k : α) (v : β) :
    lookupDict (dictInsert t k v) k = some v := by
  unfold dictInsert
  by_cases h : t.any (fun p => decide (p.1 = k)) = true
  · rw [if_pos h]
    exact lookup_map_set_self t k v h
  · rw [if_neg h]
    exact lookup_append_single_self t k v (by rwa [Bool.not_eq_true] at h)

theorem lookupDict_cons_pos {α β : Type} [DecidableEq α] (p : α × β) (ps : List (α × β))
    (k : α) (h : p.1 = k) : lookupDict (p :: ps) k = some p.2 := by
  simp [lookupDict, h]

theorem lookupDict_cons_neg {α β : Type} [DecidableEq α] (p : α × β) (ps : List (α × β))
    (k : α) (h : ¬(p.1 = k)) : lookupDict (p :: ps) k = lookupDict ps k := by
  simp [lookupDict, h]

theorem lookup_map_set_ne {α β : Type} [DecidableEq α] (t : List (α × β)) (k k' : α) (v : β)
    (hne : k' ≠ k) :
    lookupDict (t.map (fun p => if p.1 = k then (k, v) else p)) k' = lookupDict t k' := by
  induction t with
  | nil => rfl
  | cons p ps ih =>
    rw [List.map_cons]
    by_cases hp : p.1 = k
    · rw [if_pos hp]
      rw [lookupDict_cons_neg (k, v) _ k' (fun he => hne he.symm)]
      rw [lookupDict_cons_neg p ps k' (fun he => hne (hp ▸ he ▸ rfl))]
      exact ih
    · rw [if_neg hp]
      by_cases hp' : p.1 = k'
      · rw [lookupDict_cons_pos p _ k' hp', lookupDict_cons_pos p ps k' hp']
      · rw [lookupDict_cons_neg p _ k' hp', lookupDict_cons_neg p ps k' hp']
        exact ih

theorem lookup_append_single_ne {α β : Type} [DecidableEq α] (t : List (α × β)) (k k' : α)
    (v : β) (hne : k' ≠ k) :
    lookupDict (t ++ [(k, v)]) k' = lookupDict t k' := by
  induction t with
  | nil =>
    rw [List.nil_append]
    exact lookupDict_cons_neg (k, v) [] k' (fun he => hne he.symm)
  | cons p ps ih =>
    rw [List.cons_append]
    by_cases hp' : p.1 = k'
    · rw [lookupDict_cons_pos p _ k' hp', lookupDict_cons_pos p ps k' hp']
    · rw [lookupDict_cons_neg p _ k' hp', lookupDict_cons_neg p ps k' hp']
      exact ih

theorem dictInsert_lookup_ne {α β : Type} [DecidableEq α] (t : List (α × β)) (k k' : α) (v : β)
    (hne : k' ≠ k) :
    lookupDict (dictInsert t k v) k' = lookupDict t k' := by
  unfold dictInsert
  split
  · exact lookup_map_set_ne t k k' v hne
  · exact lookup_append_single_ne t k k' v hne

theorem dictInsert_mem_key {α β : Type} [DecidableEq α] (t : List (α × β)) (k : α) (v : β) :
    ∀ e ∈ dictInsert t k v, e.1 = k → e.2 = v := by
  unfold dictInsert
  split
  · intro e he hk
    rw [List.mem_map] at he
    obtain ⟨p, _, hfe⟩ := he
    by_cases hpk : p.1 = k
    · rw [if_pos hpk] at hfe
      rw [← hfe]
    · rw [if_neg hpk] at hfe
      exact absurd (hfe ▸ hk) hpk
  · next hany =>
    intro e he hk
    rcases List.mem_append.mp he with he | he
    · exfalso
      rw [List.any_eq_true] at hany
      exact hany ⟨e, he, by simp [hk]⟩
    · simp at he
      rw [he]

/-! ### Sorted distinct group keys -/

theorem insertKey_mem (x v : Int) (l : List Int) : x ∈ insertKey v l ↔ x = v ∨ x ∈ l := by
  induction l with
  | nil => simp [insertKey]
  | cons k ks ih =>
    unfold insertKey
    by_cases h1 : v < k
    · simp [h1]
    · by_cases h2 : v = k
      · subst h2
        simp [h1]
      · simp [h1, h2, ih]
        tauto

theorem insertKey_sorted (v : Int) (l : List Int) (h : l.Sorted (· < ·)) :
    (insertKey v l).Sorted (· < ·) := by
  induction l with
  | nil => simp [insertKey]
  | cons k ks ih =>
    rw [List.sorted_cons] at h
    obtain ⟨hk, hks⟩ := h
    unfold insertKey
    by_cases h1 : v < k
    · rw [if_pos h1, List.sorted_cons]
      refine ⟨?_, List.sorted_cons.mpr ⟨hk, hks⟩⟩
      intro b hb
      rcases List.mem_cons.mp hb with rfl | hb
      · exact h1
      · exact lt_trans h1 (hk b hb)
    · by_cases h2 : v = k
      · rw [if_neg h1, if_pos h2]
        exact List.sorted_cons.mpr ⟨hk, hks⟩
      · rw [if_neg h1, if_neg h2, List.sorted_cons]
        refine ⟨?_, ih hks⟩
        intro b hb
        rcases (insertKey_mem b v ks).mp hb with rfl | hb
        · exact lt_of_le_of_ne (le_of_not_lt h1) (fun he => h2 he.symm)
        · exact hk b hb

theorem foldl_insertKey_sorted (vs : List Int) (acc : List Int) (h : acc.Sorted (· < ·)) :
    (vs.foldl (fun a v => insertKey v a) acc).Sorted (· < ·) := by
  induction vs generalizing acc with
  | nil => exact h
  | cons v vs' ih => exact ih (insertKey v acc) (insertKey_sorted v acc h)

theorem groupKeys_nodup (rows : List Row) : (groupKeys rows).Nodup :=
  (foldl_insertKey_sorted (rows.filterMap rcllKey) [] (List.sorted_nil)).nodup

theorem foldl_dictInsert_lookup (keys : List Int) (f : Int → List Row)
    (t : List (Int × List Row)) (hnd : keys.Nodup) (k : Int) :
    lookupDict (keys.foldl (fun acc k₀ => dictInsert acc k₀ (f k₀)) t) k
      = if k ∈ keys then some (f k) else lookupDict t k := by
  induction keys generalizing t with
  | nil => simp
  | cons k₀ ks ih =>
    rw [List.nodup_cons] at hnd
    rw [List.foldl_cons, ih (dictInsert t k₀ (f k₀)) hnd.2]
    by_cases hk : k ∈ ks
    · simp [hk, List.mem_cons]
    · by_cases hk0 : k = k₀
      · subst hk0
        simp [hk, dictInsert_lookup_self]
      · simp [hk, hk0, dictInsert_lookup_ne t k₀ k (f k₀) hk0]

/-! ### Scan, extraction and per-block decoding lemmas -/

theorem scanLine_rc_not_ann (s : BlockScan) (l : String) (h : isAnnLine l = false) :
    (scanLine s l).rangeCell = s.rangeCell := by
  simp only [scanLine, h, Bool.false_eq_true, if_false]
  split <;> rfl

theorem scanFold_rc_no_ann (ls : List String) (s : BlockScan)
    (h : ∀ l ∈ ls, isAnnLine l = false) :
    (ls.foldl scanLine s).rangeCell = s.rangeCell := by
  induction ls generalizing s with
  | nil => rfl
  | cons l ls' ih =>
    rw [List.foldl_cons, ih (scanLine s l) (fun l' h' => h l' (List.mem_cons_of_mem l h'))]
    exact scanLine_rc_not_ann s l (h l (List.mem_cons_self l ls'))

theorem scanLine_rc_ann (s : BlockScan) (l : String) (h : isAnnLine l = true) :
    (scanLine s l).rangeCell = (annValue l).getD (-1) := by
  simp only [scanLine, h, if_true]
  cases hv : annValue l <;> simp [hv]

theorem extract_no_end (ls : List String) (st : ExtractState) (hin : st.inBlock = true)
    (h : ∀ l ∈ ls, strStarts l "%TableEnd" = false) :
    (ls.foldl extractStep st).blocks = st.blocks := by
  induction ls generalizing st with
  | nil => rfl
  | cons l ls' ih =>
    rw [List.foldl_cons]
    by_cases hS : strStarts l "%TableStart" = true
    · have he : extractStep st l = { st with inBlock := true, current := [] } := by
        simp [extractStep, hS]
      rw [he]
      exact ih { st with inBlock := true, current := [] } rfl
        (fun l' h' => h l' (List.mem_cons_of_mem l h'))
    · have hE := h l (List.mem_cons_self l ls')
      have he : extractStep st l = { st with current := st.current ++ [l] } := by
        simp [extractStep, hS, hE, hin]
      rw [he]
      exact ih { st with current := st.current ++ [l] } hin
        (fun l' h' => h l' (List.mem_cons_of_mem l h'))

theorem decodeBlock_no_data (header : List String) (st : DecState) (b : List String)
    (h : (scanBlock b).dataLines = []) :
    decodeBlock header st b = { st with diags := st.diags ++ (scanBlock b).diags } := by
  simp [decodeBlock, h]

theorem decodeBlock_annot (header : List String) (st : DecState) (b : List String)
    (h1 : (scanBlock b).rangeCell ≠ -1) (h2 : (scanBlock b).dataLines ≠ []) :
    decodeBlock header st b
      = { tables := dictInsert st.tables (scanBlock b).rangeCell (blockRows header b),
          diags := st.diags ++ (scanBlock b).diags } := by
  simp only [decodeBlock]
  rw [if_neg (by simp [h2]), if_pos h1]

theorem decodeBlock_column_lookup (header : List String) (st : DecState) (b : List String)
    (h1 : (scanBlock b).rangeCell = -1)
    (h2 : header.any (fun c => decide (c = "RCLL")) = true)
    (h3 : (scanBlock b).dataLines ≠ []) (k : Int) :
    lookupDict (decodeBlock header st b).tables k
      = if k ∈ groupKeys (keptRows header b) then some (groupRows k (keptRows header b))
        else lookupDict st.tables k := by
  simp only [decodeBlock]
  rw [if_neg (by simp [h3]), h1, if_neg (by simp), if_pos h2]
  by_cases hk : (keptRows header b).isEmpty = true
  · have hke : keptRows header b = [] := by simpa using hk
    rw [if_pos hk]
    simp [hke, groupKeys]
  · rw [if_neg hk]
    exact foldl_dictInsert_lookup (groupKeys (keptRows header b))
      (fun k₀ => groupRows k₀ (keptRows header b)) st.tables
      (groupKeys_nodup (keptRows header b)) k

theorem decodeBlock_omit (header : List String) (st : DecState) (b : List String)
    (h1 : (scanBlock b).rangeCell = -1)
    (h2 : header.any (fun c => decide (c = "RCLL")) = false)
    (h3 : (scanBlock b).dataLines ≠ []) :
    decodeBlock header st b
      = { tables := st.tables,
          diags := (st.diags ++ (scanBlock b).diags) ++ [Diag.blockOmitted] } := by
  simp only [decodeBlock]
  rw [if_neg (by simp [h3]), h1, if_neg (by simp), if_neg (by simp [h2])]

theorem decodeBlock_tables_drop (header : List String) (st : DecState) (b : List String)
    (h1 : (scanBlock b).rangeCell = -1)
    (h2 : header.any (fun c => decide (c = "RCLL")) = false) :
    (decodeBlock header st b).tables = st.tables := by
  by_cases hd : (scanBlock b).dataLines = []
  · rw [decodeBlock_no_data header st b hd]
  · rw [decodeBlock_omit header st b h1 h2 hd]

theorem findHeader_none (content : List String)
    (h : ∀ l ∈ content, containsSub l "%TableColumnTypes:" = false) :
    findHeader content = none := by
  unfold findHeader
  rw [List.find?_eq_none.mpr (fun x hx => by simp [h x hx])]

theorem find?_append_none {α : Type} (p : α → Bool) (l1 l2 : List α)
    (h : l2.find? p = none) : (l1 ++ l2).find? p = l1.find? p := by
  induction l1 with
  | nil => simpa using h
  | cons x xs ih =>
    rw [List.cons_append]
    by_cases hx : p x = true
    · rw [List.find?_cons_of_pos _ hx, List.find?_cons_of_pos _ hx]
    · rw [List.find?_cons_of_neg _ hx, List.find?_cons_of_neg _ hx]
      exact ih

theorem findHeader_append (content rest : List String)
    (h : ∀ l ∈ rest, containsSub l "%TableColumnTypes:" = false) :
    findHeader (content ++ rest) = findHeader content := by
  unfold findHeader
  rw [find?_append_none _ content rest
    (List.find?_eq_none.mpr (fun x hx => by simp [h x hx]))]

theorem decodeE_congr (c1 c2 : List String) (h1 : findHeader c1 = findHeader c2)
    (h2 : extractBlocks c1 = extractBlocks c2) : decodeE c1 = decodeE c2 := by
  unfold decodeE
  rw [h1, h2]

theorem decodeBlockE_ok (header : List String) (st : DecState) (b : List String)
    (h : blockCrash header b = none) :
    decodeBlockE header st b = Except.ok (decodeBlock header st b) := by
  unfold decodeBlockE
  rw [h]

theorem blockCrash_no_data (header : List String) (b : List String)
    (h : (scanBlock b).dataLines = []) : blockCrash header b = none := by
  simp [blockCrash, h]

theorem decodeBlockE_emptyData (header : List String) (st : DecState) (b : List String)
    (h1 : (scanBlock b).dataLines ≠ []) (h2 : blockTokenRows b = []) :
    decodeBlockE header st b = Except.error PandasError.emptyData := by
  unfold decodeBlockE blockCrash
  rw [if_neg (by simp [h1]), h2]

/-! ### Claim theorems: decoder -/

/-- C3 (amended): a table block with no data lines at all is skipped
before variant resolution, contributing no rows and no diagnostic; a
block whose data lines are present but all blank is not skipped and
crashes decoding (pandas EmptyDataError) before any variant is
resolved; otherwise, for a block `read_csv` parses, variant resolution
is mutually exclusive and tried in this order: an annotated block
assigns its annotated range-cell id to every row (even when an `RCLL`
column is present); otherwise, when the declared columns include
`RCLL`, rows are grouped by that column's value with null-valued rows
dropped (null includes every numeric spelling of the `999.00`
sentinel); otherwise the block contributes no rows and only a
diagnostic is emitted. -/
theorem variant_resolution (header : List String) (st : DecState) (b : List String) :
    ((scanBlock b).dataLines = [] →
      decodeBlockE header st b
        = Except.ok { st with diags := st.diags ++ (scanBlock b).diags })
    ∧ ((scanBlock b).dataLines ≠ [] → blockTokenRows b = [] →
      decodeBlockE header st b = Except.error PandasError.emptyData)
    ∧ (blockCrash header b = none → (scanBlock b).rangeCell ≠ -1 →
      (scanBlock b).dataLines ≠ [] →
      decodeBlockE header st b
        = Except.ok { tables := dictInsert st.tables (scanBlock b).rangeCell (blockRows header b),
                      diags := st.diags ++ (scanBlock b).diags })
    ∧ (blockCrash header b = none → (scanBlock b).rangeCell = -1 →
      header.any (fun c => decide (c = "RCLL")) = true → (scanBlock b).dataLines ≠ [] →
      decodeBlockE header st b = Except.ok (decodeBlock header st b)
      ∧ ∀ k : Int, lookupDict (decodeBlock header st b).tables k
        = if k ∈ groupKeys (keptRows header b) then some (groupRows k (keptRows header b))
          else lookupDict st.tables k)
    ∧ (blockCrash header b = none → (scanBlock b).rangeCell = -1 →
      header.any (fun c => decide (c = "RCLL")) = false → (scanBlock b).dataLines ≠ [] →
      decodeBlockE header st b
        = Except.ok { tables := st.tables,
                      diags := (st.diags ++ (scanBlock b).diags) ++ [Diag.blockOmitted] }) := by
  refine ⟨?_, ?_, ?_, ?_, ?_⟩
  · intro h
    rw [decodeBlockE_ok header st b (blockCrash_no_data header b h),
      decodeBlock_no_data header st b h]
  · exact decodeBlockE_emptyData header st b
  · intro hc h1 h2
    rw [decodeBlockE_ok header st b hc, decodeBlock_annot header st b h1 h2]
  · intro hc h1 h2 h3
    exact ⟨decodeBlockE_ok header st b hc,
      fun k => decodeBlock_column_lookup header st b h1 h2 h3 k⟩
  · intro hc h1 h2 h3
    rw [decodeBlockE_ok header st b hc, decodeBlock_omit header st b h1 h2 h3]

/-- Counterexample for C3 as stated: this block carries no range-cell
annotation and the declared columns have no `RCLL`, yet decoding emits
no diagnostic (the block has no data lines and is skipped before
variant resolution); a single blank data line is, moreover, not
resolved at all but crashes `read_csv`; and the sentinel nulls extend
beyond the literal `999.00`, so an `RCLL` token `999` is dropped rather
than grouped. -/
theorem variant_resolution_cex :
    (scanBlock ["%note"]).rangeCell = -1
    ∧ (["TIME", "MWHT"].any (fun c => decide (c = "RCLL"))) = false
    ∧ decode ["%TableColumnTypes: TIME MWHT", "%TableStart", "%note", "%TableEnd"]
        = { tables := [], diags := [], fatal := none }
    ∧ decodeBlockE ["TIME", "MWHT"] ⟨[], []⟩ [""] = Except.error PandasError.emptyData
    ∧ parseCell "999" = none :=
  ⟨by decide, by decide, by decide, by decide, by decide⟩

/-- Witness for C3 (amended): an annotated block (despite an `RCLL`
column) lands wholly under its annotation, and the `RCLL` values 3, 3,
7 of an unannotated block group into range cell 3 with two rows. -/
theorem variant_resolution_witness :
    decodeBlockE ["RCLL", "MWHT"] ⟨[], []⟩ ["% RangeCell: 5", "1 2.0"]
      = Except.ok { tables := [(5, [[("RCLL", some 1), ("MWHT", some 2)]])], diags := [] }
    ∧ lookupDict (decodeBlock ["RCLL", "MWHT"] ⟨[], []⟩ ["3 1.0", "3 1.5", "7 2.0"]).tables 3
      = some [[("RCLL", some 3), ("MWHT", some 1)],
              [("RCLL", some 3), ("MWHT", some (mkRat 3 2))]] :=
  ⟨((variant_resolution ["RCLL", "MWHT"] ⟨[], []⟩ ["% RangeCell: 5", "1 2.0"]).2.2.1
      (by decide) (by decide) (by decide)).trans (by decide),
   (((variant_resolution ["RCLL", "MWHT"] ⟨[], []⟩ ["3 1.0", "3 1.5", "7 2.0"]).2.2.2.1
      (by decide) (by decide) (by decide) (by decide)).2 3).trans (by decide)⟩

/-- C4: a document with no `%TableColumnTypes:` line decodes to the
fatal missing-header outcome with an empty table map, however many
blocks it contains. -/
theorem decode_missing_header (content : List String)
    (h : ∀ l ∈ content, containsSub l "%TableColumnTypes:" = false) :
    (decode content).fatal = some DecodeError.missingHeader ∧ (decode content).tables = [] := by
  have hf := findHeader_none content h
  simp [decode, hf]

/-- Witness for C4: a concrete two-block document without the header
line is fatal and yields no tables. -/
theorem decode_missing_header_witness :
    (decode ["%Site: PRIO", "%TableStart", "1 2", "%TableEnd", "%TableStart", "3 4",
      "%TableEnd"]).fatal = some DecodeError.missingHeader
    ∧ (decode ["%Site: PRIO", "%TableStart", "1 2", "%TableEnd", "%TableStart", "3 4",
      "%TableEnd"]).tables = [] :=
  decode_missing_header
    ["%Site: PRIO", "%TableStart", "1 2", "%TableEnd", "%TableStart", "3 4", "%TableEnd"]
    (by decide)

/-- C8 (amended): with the global header present, an unterminated
block (a start marker with no matching end) is discarded silently —
its lines change nothing about the decode result, so no diagnostic is
emitted for it; a block with neither annotation nor `RCLL` column
contributes no table; and a non-crashing decode of a headed document is
never the fatal missing-header outcome. Decoding is not raise-free,
however: a block whose data lines are present but all blank leaves
`read_csv` nothing to parse and raises EmptyDataError. -/
theorem decode_degrades_by_omission :
    (∀ (content : List String) (startLine : String) (suffix : List String),
      strStarts startLine "%TableStart" = true →
      (∀ l ∈ suffix, strStarts l "%TableEnd" = false) →
      (∀ l ∈ startLine :: suffix, containsSub l "%TableColumnTypes:" = false) →
      decodeE (content ++ startLine :: suffix) = decodeE content)
    ∧ (∀ (header : List String) (st : DecState) (b : List String),
      (scanBlock b).rangeCell = -1 → header.any (fun c => decide (c = "RCLL")) = false →
      blockCrash header b = none →
      decodeBlockE header st b = Except.ok (decodeBlock header st b)
      ∧ (decodeBlock header st b).tables = st.tables)
    ∧ (∀ (content : List String) (hd : List String) (res : DecodeResult),
      findHeader content = some hd → decodeE content = Except.ok res → res.fatal = none)
    ∧ (∀ (header : List String) (st : DecState) (b : List String),
      (scanBlock b).dataLines ≠ [] → blockTokenRows b = [] →
      decodeBlockE header st b = Except.error PandasError.emptyData) := by
  refine ⟨?_, ?_, ?_, ?_⟩
  · intro content startLine suffix hS hE hH
    have hfind : findHeader (content ++ startLine :: suffix) = findHeader content :=
      findHeader_append content (startLine :: suffix) hH
    have hext : extractBlocks (content ++ startLine :: suffix) = extractBlocks content := by
      unfold extractBlocks
      rw [List.foldl_append, List.foldl_cons]
      have hstep : extractStep (content.foldl extractStep ⟨[], [], false⟩) startLine
          = { content.foldl extractStep ⟨[], [], false⟩ with
              inBlock := true, current := [] } := by
        simp [extractStep, hS]
      rw [hstep]
      exact extract_no_end suffix _ rfl hE
    exact decodeE_congr _ _ hfind hext
  · intro header st b h1 h2 hc
    exact ⟨decodeBlockE_ok header st b hc, decodeBlock_tables_drop header st b h1 h2⟩
  · intro content hd res hfind hok
    simp only [decodeE, hfind] at hok
    by_cases hb : (extractBlocks content).isEmpty = true
    · rw [if_pos hb] at hok
      injection hok with he
      rw [← he]
    · rw [if_neg hb] at hok
      cases hde : decodeBlocksE hd {} (extractBlocks content) with
      | error e => rw [hde] at hok; cases hok
      | ok st => rw [hde] at hok; injection hok with he; rw [← he]
  · exact fun header st b => decodeBlockE_emptyData header st b

/-- Counterexample for C8 as stated: the trailing unterminated block of
the first document is discarded while the diagnostic list stays empty —
there is no diagnostic for the discard; and the second document makes
decoding raise (EmptyDataError) on a block whose only data line is
blank, so decoding does not always return a DecodedTable. -/
theorem decode_degrades_by_omission_cex :
    decodeE ["%TableColumnTypes: A", "%TableStart", "% RangeCell: 1", "7", "%TableEnd",
        "%TableStart", "8"]
      = Except.ok { tables := [(1, [[("A", some 7)]])], diags := [], fatal := none }
    ∧ decodeE ["%TableColumnTypes: A", "%TableStart", "", "%TableEnd"]
      = Except.error PandasError.emptyData :=
  ⟨by decide, by decide⟩

/-- Witness for C8 (amended): a concrete unterminated second block
leaves the decode unchanged, a concrete annotation-free `RCLL`-free
block adds no table, a concrete well-headed document decodes
non-fatally, and a concrete blank-only block raises. -/
theorem decode_degrades_by_omission_witness :
    decodeE (["%TableColumnTypes: TIME", "%TableStart", "1", "%TableEnd"] ++
        "%TableStart" :: ["2"])
      = decodeE ["%TableColumnTypes: TIME", "%TableStart", "1", "%TableEnd"]
    ∧ (decodeBlock ["TIME"] ⟨[], []⟩ ["5 5"]).tables = []
    ∧ ({ tables := [], diags := [Diag.blockOmitted], fatal := none } : DecodeResult).fatal = none
    ∧ decodeBlockE ["TIME"] ⟨[], []⟩ [""] = Except.error PandasError.emptyData :=
  ⟨decode_degrades_by_omission.1 ["%TableColumnTypes: TIME", "%TableStart", "1", "%TableEnd"]
      "%TableStart" ["2"] (by decide) (by decide) (by decide),
   (decode_degrades_by_omission.2.1 ["TIME"] ⟨[], []⟩ ["5 5"] (by decide) (by decide)
      (by decide)).2,
   decode_degrades_by_omission.2.2.1
      ["%TableColumnTypes: TIME", "%TableStart", "1", "%TableEnd"] ["TIME"]
      { tables := [], diags := [Diag.blockOmitted], fatal := none } (by decide) (by decide),
   decode_degrades_by_omission.2.2.2 ["TIME"] ⟨[], []⟩ [""] (by decide) (by decide)⟩

/-- C9: when a later block resolves rows to a range-cell id already
populated by an earlier block, the later block's rows replace the
earlier ones rather than appending: after both blocks are decoded, the
only entry under that id holds exactly the later block's rows, whether
the later block is annotated or grouped by its `RCLL` column. -/
theorem later_block_replaces (header : List String) (st : DecState) (b1 b2 : List String) :
    (∀ rc : Int, (scanBlock b2).rangeCell = rc → rc ≠ -1 → (scanBlock b2).dataLines ≠ [] →
      lookupDict ([b1, b2].foldl (decodeBlock header) st).tables rc
        = some (blockRows header b2)
      ∧ ∀ e ∈ ([b1, b2].foldl (decodeBlock header) st).tables, e.1 = rc →
          e.2 = blockRows header b2)
    ∧ (∀ k : Int, (scanBlock b2).rangeCell = -1 →
        header.any (fun c => decide (c = "RCLL")) = true →
        (scanBlock b2).dataLines ≠ [] → k ∈ groupKeys (keptRows header b2) →
        lookupDict ([b1, b2].foldl (decodeBlock header) st).tables k
          = some (groupRows k (keptRows header b2))) := by
  have hfold : [b1, b2].foldl (decodeBlock header) st
      = decodeBlock header (decodeBlock header st b1) b2 := rfl
  constructor
  · intro rc h2 hrc hd2
    have hb2 := decodeBlock_annot header (decodeBlock header st b1) b2
      (by rw [h2]; exact hrc) hd2
    constructor
    · rw [hfold, hb2]
      dsimp only
      rw [h2]
      exact dictInsert_lookup_self _ rc _
    · rw [hfold, hb2]
      dsimp only
      intro e he hk
      rw [h2] at he
      exact dictInsert_mem_key _ rc _ e he hk
  · intro k h2 hR hd2 hmem
    rw [hfold, decodeBlock_column_lookup header (decodeBlock header st b1) b2 h2 hR hd2 k,
      if_pos hmem]

/-- Witness for C9: two concrete blocks annotated with range cell 2; the
stored rows for id 2 are the second block's. -/
theorem later_block_replaces_witness :
    lookupDict ([["% RangeCell: 2", "1 1"], ["% RangeCell: 2", "5 5"]].foldl
        (decodeBlock ["TIME", "MWHT"]) ⟨[], []⟩).tables 2
      = some (blockRows ["TIME", "MWHT"] ["% RangeCell: 2", "5 5"]) :=
  ((later_block_replaces ["TIME", "MWHT"] ⟨[], []⟩ ["% RangeCell: 2", "1 1"]
    ["% RangeCell: 2", "5 5"]).1 2 (by decide) (by decide) (by decide)).1

/-- C10: an annotation line with an unparseable value does not fail
decoding: the last annotation line read determines the block's range
cell, an unparseable one resetting it to the no-annotation sentinel so
the block falls back to the column variant or is dropped. -/
theorem annotation_last_wins (pre post : List String) (line : String)
    (hA : isAnnLine line = true) (hP : ∀ l ∈ post, isAnnLine l = false) :
    (scanBlock (pre ++ line :: post)).rangeCell = (annValue line).getD (-1)
    ∧ (annValue line = none →
        ∀ (header : List String) (st : DecState),
          header.any (fun c => decide (c = "RCLL")) = false →
          (decodeBlock header st (pre ++ line :: post)).tables = st.tables) := by
  have hrc : (scanBlock (pre ++ line :: post)).rangeCell = (annValue line).getD (-1) := by
    unfold scanBlock
    rw [List.foldl_append, List.foldl_cons]
    rw [scanFold_rc_no_ann post _ hP]
    exact scanLine_rc_ann _ line hA
  refine ⟨hrc, fun hnone header st hR => ?_⟩
  exact decodeBlock_tables_drop header st _ (by rw [hrc, hnone]; rfl) hR

/-- Witness for C10: a block whose good annotation is followed by an
unparseable one ends with the sentinel range cell and contributes no
table. -/
theorem annotation_last_wins_witness :
    (scanBlock (["% RangeCell: 7"] ++ "% RangeCell: x" :: ["1 2"])).rangeCell = -1
    ∧ (decodeBlock ["TIME"] ⟨[], []⟩
        (["% RangeCell: 7"] ++ "% RangeCell: x" :: ["1 2"])).tables = [] := by
  have h := annotation_last_wins ["% RangeCell: 7"] ["1 2"] "% RangeCell: x"
    (by decide) (by decide)
  exact ⟨h.1.trans (by decide), h.2 (by decide) ["TIME"] ⟨[], []⟩ (by decide)⟩

end RadarWaves
